import Mathlib

/-!
Verification development for the LSIF ingestion and query service
(src/lsif/src/server.ts, src/lsif/src/worker.ts, and the per-dump query
database exercised by the test in src/unnamed/part_000).

The definitions below are shallow embeddings of the TypeScript source.
Where the repository snapshot does not include the implementation file
(queue.ts, util.ts, database.ts are referenced but absent from src/),
the corresponding definition carries a doc comment starting with
`Modelled from the spec:` and follows spec.md.
-/

deriving instance DecidableEq for Except

namespace Lsif

/-- Value of an express query parameter: `undefined` when absent, a string,
or a non-string value (array/object produced by repeated parameters). -/
inductive QueryVal where
  | undef
  | str (s : String)
  | nonString
deriving DecidableEq, Repr

/-- JS `typeof v === 'string'` on a query parameter. -/
def isStringParam : QueryVal → Bool
  | .str _ => true
  | _ => false

/-- One character of the character class `[0-9a-f]` from the commit regexp in
`checkCommit` (server.ts line 345). -/
def isHexChar (c : Char) : Bool :=
  (decide ('0' ≤ c) && decide (c ≤ '9')) || (decide ('a' ≤ c) && decide (c ≤ 'f'))

/-- The condition under which `checkCommit` accepts: the parameter is a string
of exactly 40 characters all matching `[0-9a-f]` (server.ts line 345). -/
def commitValid : QueryVal → Bool
  | .str s => s.length == 40 && s.data.all isHexChar
  | _ => false

/-- `checkRepository` (server.ts lines 333-339): throws an error with status
400 unless the repository parameter is a string. -/
def checkRepository (repository : QueryVal) : Except Nat Unit :=
  if isStringParam repository then .ok () else .error 400

/-- `checkCommit` (server.ts lines 344-348): throws an error with status 400
unless the commit parameter is a string of 40 lowercase-hex characters. -/
def checkCommit (commit : QueryVal) : Except Nat Unit :=
  if commitValid commit then .ok () else .error 400

/-- `checkFile` (server.ts lines 353-357): throws an error with status 400
unless the file parameter is a string. -/
def checkFile (file : QueryVal) : Except Nat Unit :=
  if isStringParam file then .ok () else .error 400

/-- `checkMethod` (server.ts lines 362-368): throws an error with status 422
when the requested method is not among the supported ones. -/
def checkMethod (method : String) (supportedMethods : List String) : Except Nat Unit :=
  if supportedMethods.contains method then .ok () else .error 422

/-- Parameter-validation phase of `POST /upload` (server.ts lines 263-264):
`checkRepository` then `checkCommit`, first failure wins. -/
def uploadChecks (repository commit : QueryVal) : Except Nat Unit :=
  match checkRepository repository with
  | .error e => .error e
  | .ok _ => checkCommit commit

/-- Parameter-validation phase of `POST /exists` (server.ts lines 299-301):
`checkRepository`, `checkCommit`, then `checkFile`. -/
def existsChecks (repository commit file : QueryVal) : Except Nat Unit :=
  match checkRepository repository with
  | .error e => .error e
  | .ok _ =>
    match checkCommit commit with
    | .error e => .error e
    | .ok _ => checkFile file

/-- Parameter-validation phase of `POST /request` (server.ts lines 316-318):
`checkRepository`, `checkCommit`, then `checkMethod` against the three
supported methods. -/
def requestChecks (repository commit : QueryVal) (method : String) : Except Nat Unit :=
  match checkRepository repository with
  | .error e => .error e
  | .ok _ =>
    match checkCommit commit with
    | .error e => .error e
    | .ok _ => checkMethod method ["definitions", "references", "hover"]

/-- JS expression `root || ''` applied to the `root` query parameter
(server.ts line 287): `undefined` and the empty string are falsy and are
replaced by `''`; any other value passes through. -/
def jsOrEmptyStr : QueryVal → QueryVal
  | .undef => .str ""
  | .str "" => .str ""
  | v => v

/-- Arguments of the enqueued `convert` job (server.ts line 287):
`{ repository, commit, root: root || '', filename }`. -/
structure ConvertArgs where
  repository : QueryVal
  commit : QueryVal
  root : QueryVal
  filename : String
deriving DecidableEq, Repr

/-- Outcome of the `POST /upload` handler: an error response with a status,
or a 200 response together with the bytes spooled to `uploads/<uuid>` and the
enqueued `convert` job. -/
inductive UploadOutcome where
  | err (status : Nat)
  | accepted (status : Nat) (stored : List Nat) (job : ConvertArgs)
deriving DecidableEq, Repr

/-- The `POST /upload` handler (server.ts lines 253-292). `validate` stands
for the validating pipeline `validateLsifElements ∘ readGzippedJsonElements`
succeeding on the body, and `reencode` for the re-serialization
`createGzip ∘ stringifyJsonLines` of the validated elements; both live in
input.ts, outside this embedding. With `skipValidation === 'true'` the raw
request body is piped to the spool file unchanged; otherwise a validation
failure is rethrown with status 422, and on success the re-encoded stream is
spooled. In both success cases a `convert` job is enqueued and the response
is 200. -/
def uploadHandler (validate : List Nat → Bool) (reencode : List Nat → List Nat)
    (filename : String) (repository commit root skipValidation : QueryVal)
    (body : List Nat) : UploadOutcome :=
  match uploadChecks repository commit with
  | .error e => .err e
  | .ok _ =>
    if skipValidation = QueryVal.str "true" then
      .accepted 200 body ⟨repository, commit, jsOrEmptyStr root, filename⟩
    else if validate body then
      .accepted 200 (reencode body) ⟨repository, commit, jsOrEmptyStr root, filename⟩
    else
      .err 422

/-- A commit string of 40 lowercase-hex characters used as a concrete input. -/
def testCommit : String := "aaaaaaaaaaaaaaaaaaaaaaaaaaaaaaaaaaaaaaaa"

/-- The same 40 characters in uppercase: hexadecimal under a case-insensitive
reading, but rejected by the source's `[0-9a-f]` character class. -/
def testCommitUpper : String := "AAAAAAAAAAAAAAAAAAAAAAAAAAAAAAAAAAAAAAAA"

/-- One character of a case-insensitive hexadecimal character class, the
reading of `40 hex characters` under which uppercase digits are allowed;
stated from the claim's words, for comparison with `isHexChar`. -/
def isHexCharCI (c : Char) : Bool :=
  isHexChar c || (decide ('A' ≤ c) && decide (c ≤ 'F'))

end Lsif

namespace Lsif

/-- C5 counterexample: the claim fails in two ways. First, `POST /exists`
with a string repository and a 40-lowercase-hex commit but an absent `file`
parameter raises HTTP 400, although both the repository and the commit
parameters are valid. Second, a 40-character commit that is hexadecimal
under a case-insensitive reading is rejected with 400 because the source's
regexp accepts lowercase digits only. -/
theorem param_check_400_counterexample :
    isStringParam (QueryVal.str "github.com/u/r") = true ∧
    commitValid (QueryVal.str testCommit) = true ∧
    existsChecks (QueryVal.str "github.com/u/r") (QueryVal.str testCommit) QueryVal.undef
      = Except.error 400 ∧
    testCommitUpper.length = 40 ∧
    testCommitUpper.data.all isHexCharCI = true ∧
    checkCommit (QueryVal.str testCommitUpper) = Except.error 400 := by
  decide

/-- C5 (amended): for `/upload` and `/request` an HTTP 400 error is raised
exactly when the repository parameter is not a string or the commit parameter
is not a string of exactly 40 lowercase-hex characters; for `/exists` a 400
is additionally raised when the file parameter is not a string. Parameters
whose repository is a string and whose commit is 40 lowercase-hex characters
always pass `checkRepository` and `checkCommit` without error. -/
theorem param_checks_400_iff (r c f : QueryVal) (m : String) :
    (uploadChecks r c = Except.error 400
        ↔ (isStringParam r = false ∨ commitValid c = false)) ∧
    (requestChecks r c m = Except.error 400
        ↔ (isStringParam r = false ∨ commitValid c = false)) ∧
    (existsChecks r c f = Except.error 400
        ↔ (isStringParam r = false ∨ commitValid c = false ∨ isStringParam f = false)) ∧
    (checkRepository r = Except.ok () ↔ isStringParam r = true) ∧
    (checkCommit c = Except.ok () ↔ commitValid c = true) := by
  refine ⟨?_, ?_, ?_, ?_, ?_⟩
  · unfold uploadChecks checkRepository checkCommit
    cases hr : isStringParam r <;> cases hc : commitValid c <;> simp
  · unfold requestChecks checkRepository checkCommit checkMethod
    cases hr : isStringParam r <;> cases hc : commitValid c <;>
      cases hm : (["definitions", "references", "hover"] : List String).contains m <;> simp
  · unfold existsChecks checkRepository checkCommit checkFile
    cases hr : isStringParam r <;> cases hc : commitValid c <;>
      cases hf : isStringParam f <;> simp
  · unfold checkRepository
    cases hr : isStringParam r <;> simp
  · unfold checkCommit
    cases hc : commitValid c <;> simp

/-- C4: for an upload request whose repository and commit parameters pass the
preceding checks and whose `skipValidation` parameter is not the string
`true`, the handler responds 422 exactly when the body fails to parse and
validate as a gzipped stream of LSIF JSON lines; a body that validates is
persisted (re-encoded by the validating pipeline), the `convert` job is
enqueued, and the response is 200. -/
theorem upload_422_iff_invalid_body
    (validate : List Nat → Bool) (reencode : List Nat → List Nat) (filename : String)
    (repo chash : String) (root skipV : QueryVal) (body : List Nat)
    (hc : commitValid (QueryVal.str chash) = true)
    (hskip : skipV ≠ QueryVal.str "true") :
    (uploadHandler validate reencode filename (QueryVal.str repo) (QueryVal.str chash)
        root skipV body = UploadOutcome.err 422 ↔ validate body = false) ∧
    (validate body = true →
      uploadHandler validate reencode filename (QueryVal.str repo) (QueryVal.str chash)
          root skipV body
        = UploadOutcome.accepted 200 (reencode body)
            ⟨QueryVal.str repo, QueryVal.str chash, jsOrEmptyStr root, filename⟩) := by
  unfold uploadHandler uploadChecks checkRepository checkCommit
  simp only [isStringParam, if_pos, hc, if_true, if_neg hskip]
  cases hv : validate body <;> simp

/-- C4 witness: with a concrete always-failing validator and a malformed
one-byte body, the handler responds 422; the iff holds at that input. -/
theorem upload_422_iff_invalid_body_witness :
    (uploadHandler (fun _ => false) (fun b => b) "uploads/u" (QueryVal.str "github.com/u/r")
        (QueryVal.str testCommit) QueryVal.undef QueryVal.undef [31]
      = UploadOutcome.err 422 ↔ (fun (_ : List Nat) => false) [31] = false) ∧
    ((fun (_ : List Nat) => false) [31] = true →
      uploadHandler (fun _ => false) (fun b => b) "uploads/u" (QueryVal.str "github.com/u/r")
          (QueryVal.str testCommit) QueryVal.undef QueryVal.undef [31]
        = UploadOutcome.accepted 200 [31]
            ⟨QueryVal.str "github.com/u/r", QueryVal.str testCommit,
              jsOrEmptyStr QueryVal.undef, "uploads/u"⟩) :=
  upload_422_iff_invalid_body (fun _ => false) (fun b => b) "uploads/u" "github.com/u/r"
    testCommit QueryVal.undef QueryVal.undef [31] (by decide) (by decide)

/-- C9: when `skipValidation=true`, the raw request body is written
byte-for-byte to the spool file without any LSIF parsing or validation, a
`convert` job is enqueued, and the response is 200 — the stored bytes equal
the body and the outcome does not consult `validate` at all, so a malformed
payload is accepted on this path. -/
theorem upload_skip_validation_persists_raw
    (validate : List Nat → Bool) (reencode : List Nat → List Nat) (filename : String)
    (repo chash : String) (root : QueryVal) (body : List Nat)
    (hc : commitValid (QueryVal.str chash) = true) :
    uploadHandler validate reencode filename (QueryVal.str repo) (QueryVal.str chash)
        root (QueryVal.str "true") body
      = UploadOutcome.accepted 200 body
          ⟨QueryVal.str repo, QueryVal.str chash, jsOrEmptyStr root, filename⟩ := by
  unfold uploadHandler uploadChecks checkRepository checkCommit
  simp [isStringParam, hc]

/-- C9 witness: a payload rejected by the (always-failing) validator is still
accepted with 200 and stored byte-for-byte when `skipValidation=true`. -/
theorem upload_skip_validation_persists_raw_witness :
    uploadHandler (fun _ => false) (fun b => b) "uploads/u" (QueryVal.str "github.com/u/r")
        (QueryVal.str testCommit) QueryVal.undef (QueryVal.str "true") [31, 139]
      = UploadOutcome.accepted 200 [31, 139]
          ⟨QueryVal.str "github.com/u/r", QueryVal.str testCommit,
            jsOrEmptyStr QueryVal.undef, "uploads/u"⟩ :=
  upload_skip_validation_persists_raw (fun _ => false) (fun b => b) "uploads/u"
    "github.com/u/r" testCommit QueryVal.undef [31, 139] (by decide)

/-- C10: whenever the upload handler accepts a request (responds 200 and
enqueues a `convert` job) and the `root` query parameter is absent or the
empty string, the enqueued job's root is the empty string, and its
repository, commit, and spooled filename are exactly the request's. -/
theorem upload_root_defaults_empty
    (validate : List Nat → Bool) (reencode : List Nat → List Nat) (filename : String)
    (repository commit root skipV : QueryVal) (body stored : List Nat) (job : ConvertArgs)
    (hacc : uploadHandler validate reencode filename repository commit root skipV body
        = UploadOutcome.accepted 200 stored job)
    (hroot : root = QueryVal.undef ∨ root = QueryVal.str "") :
    job.root = QueryVal.str "" ∧ job.repository = repository ∧
      job.commit = commit ∧ job.filename = filename := by
  have hempty : jsOrEmptyStr root = QueryVal.str "" := by
    rcases hroot with h | h <;> subst h <;> rfl
  unfold uploadHandler at hacc
  rcases hchecks : uploadChecks repository commit with e | u
  · rw [hchecks] at hacc
    exact absurd hacc (by simp)
  · rw [hchecks] at hacc
    by_cases hskip : skipV = QueryVal.str "true"
    · rw [if_pos hskip] at hacc
      obtain ⟨-, -, hjob⟩ := UploadOutcome.accepted.inj hacc
      subst hjob
      exact ⟨hempty, rfl, rfl, rfl⟩
    · rw [if_neg hskip] at hacc
      cases hv : validate body
      · rw [hv] at hacc
        exact absurd hacc (by simp)
      · rw [hv] at hacc
        simp only [if_true] at hacc
        obtain ⟨-, -, hjob⟩ := UploadOutcome.accepted.inj hacc
        subst hjob
        exact ⟨hempty, rfl, rfl, rfl⟩

/-- C10 witness: a concrete accepted upload with an absent root enqueues a
job with the empty root and the request's repository, commit and filename. -/
theorem upload_root_defaults_empty_witness :
    (ConvertArgs.mk (QueryVal.str "github.com/u/r") (QueryVal.str testCommit)
        (QueryVal.str "") "uploads/u").root = QueryVal.str "" ∧
    (ConvertArgs.mk (QueryVal.str "github.com/u/r") (QueryVal.str testCommit)
        (QueryVal.str "") "uploads/u").repository = QueryVal.str "github.com/u/r" ∧
    (ConvertArgs.mk (QueryVal.str "github.com/u/r") (QueryVal.str testCommit)
        (QueryVal.str "") "uploads/u").commit = QueryVal.str testCommit ∧
    (ConvertArgs.mk (QueryVal.str "github.com/u/r") (QueryVal.str testCommit)
        (QueryVal.str "") "uploads/u").filename = "uploads/u" :=
  upload_root_defaults_empty (fun _ => true) (fun b => b) "uploads/u"
    (QueryVal.str "github.com/u/r") (QueryVal.str testCommit) QueryVal.undef QueryVal.undef
    [10] [10]
    (ConvertArgs.mk (QueryVal.str "github.com/u/r") (QueryVal.str testCommit)
      (QueryVal.str "") "uploads/u")
    (by decide) (Or.inl rfl)

/-- Steps of the `convert` job processor (worker.ts lines 87-124) that can
fail: the LSIF conversion `convertLsif`, the cross-repo registration
`addPackagesAndReferences`, the `fs.rename` into final storage, and the
trailing `discoverAndUpdateCommit`. -/
inductive ConvertStep where
  | convertLsif
  | register
  | rename
  | discover
deriving DecidableEq, Repr

/-- Observable on-disk and cross-repo state during a `convert` job for one
dump: whether the inbound upload file, the temp database file, the committed
cross-repo dump row, and the final `storage/<dump-id>` database file exist. -/
structure WorkerState where
  uploadFile : Bool
  tempFile : Bool
  dumpRow : Bool
  dbFile : Bool
deriving DecidableEq, Repr

/-- Execution of `createConvertJobProcessor` (worker.ts lines 87-124),
optionally failing at one step, returning the sequence of states observable
between the steps (the server process shares the cross-repo database and the
storage directory, so each intermediate state is visible to readers) and
whether the job succeeded. `convertLsif` writes the temp file;
`addPackagesAndReferences` is transactional, so on its failure no row is
committed; the catch block unlinks the temp file and rethrows; the upload
file is unlinked last, only after every step succeeded. -/
def runConvertJob (failAt : Option ConvertStep) : List WorkerState × Bool :=
  let s0 : WorkerState := ⟨true, false, false, false⟩
  let s1 : WorkerState := { s0 with tempFile := true }
  if failAt = some ConvertStep.convertLsif then
    ([s0, s1, { s1 with tempFile := false }], false)
  else if failAt = some ConvertStep.register then
    ([s0, s1, { s1 with tempFile := false }], false)
  else
    let s2 : WorkerState := { s1 with dumpRow := true }
    if failAt = some ConvertStep.rename then
      ([s0, s1, s2, { s2 with tempFile := false }], false)
    else
      let s3 : WorkerState := { s2 with tempFile := false, dbFile := true }
      if failAt = some ConvertStep.discover then
        ([s0, s1, s2, s3], false)
      else
        ([s0, s1, s2, s3, { s3 with uploadFile := false }], true)

/-- Final observable state of a `convert` job execution. -/
def convertFinal (failAt : Option ConvertStep) : WorkerState :=
  (runConvertJob failAt).1.getLastD ⟨true, false, false, false⟩

/-- C1 counterexample: in a successful `convert` job the cross-repo rows are
committed before the rename, so the state with the dump row present and the
database file absent is observable; and when the rename step fails, that is
the final state — the committed row is not rolled back while the temp file is
unlinked, so a dump row exists with no file at all. -/
theorem convert_row_without_file_window :
    (WorkerState.mk true true true false) ∈ (runConvertJob none).1 ∧
    (WorkerState.mk true true true false).dumpRow = true ∧
    (WorkerState.mk true true true false).dbFile = false ∧
    (convertFinal (some ConvertStep.rename)).dumpRow = true ∧
    (convertFinal (some ConvertStep.rename)).dbFile = false ∧
    (runConvertJob (some ConvertStep.rename)).2 = false := by
  decide

/-- C1 (amended): the cross-repo rows are committed before the rename, so a
reader may observe a dump row whose database file is not yet present (and,
when the rename fails, the committed row persists without a file); in every
reachable state a file under `storage/<dump-id>` implies its dump row, and a
successfully completed `convert` job ends with both the rows committed and
the renamed file in place. -/
theorem convert_file_implies_row :
    ∀ failAt : Option ConvertStep,
      (runConvertJob failAt).1.all (fun s => !s.dbFile || s.dumpRow) = true ∧
      (convertFinal none).dumpRow = true ∧
      (convertFinal none).dbFile = true ∧
      (runConvertJob none).2 = true := by
  intro failAt
  refine ⟨?_, by decide, by decide, by decide⟩
  cases failAt with
  | none => decide
  | some st => cases st <;> decide

/-- C2: when the LSIF conversion, the cross-repo registration, or the rename
fails, the temp database file is unlinked and the job fails by rethrowing,
while the inbound upload file is left in place; and for every execution the
upload file is unlinked exactly when the whole job succeeds. -/
theorem convert_failure_cleanup :
    ((convertFinal (some ConvertStep.convertLsif)).tempFile = false ∧
      (convertFinal (some ConvertStep.convertLsif)).uploadFile = true ∧
      (runConvertJob (some ConvertStep.convertLsif)).2 = false) ∧
    ((convertFinal (some ConvertStep.register)).tempFile = false ∧
      (convertFinal (some ConvertStep.register)).uploadFile = true ∧
      (runConvertJob (some ConvertStep.register)).2 = false) ∧
    ((convertFinal (some ConvertStep.rename)).tempFile = false ∧
      (convertFinal (some ConvertStep.rename)).uploadFile = true ∧
      (runConvertJob (some ConvertStep.rename)).2 = false) ∧
    (∀ failAt : Option ConvertStep,
      (convertFinal failAt).uploadFile = false ↔ (runConvertJob failAt).2 = true) := by
  refine ⟨by decide, by decide, by decide, ?_⟩
  intro failAt
  cases failAt with
  | none => decide
  | some st => cases st <;> decide

/-- A repeatable job registered in the bull queue: a job name and its
repetition period in seconds. -/
structure RepeatableJob where
  name : String
  every : Nat
deriving DecidableEq, Repr

/-- Modelled from the spec: `ensureOnlyRepeatableJob` (called at server.ts
line 117; its implementation in queue.ts is not under src/). Per spec §4.6
the `update-tips` job "must be singleton: at most one instance of this job
may be enqueued at any time", and §9 requires the queue to support
"scheduled singletons": any other repeatable job with the given name is
removed and a single repeatable job with the given period is registered. -/
def ensureOnlyRepeatableJob (queue : List RepeatableJob) (name : String) (every : Nat) :
    List RepeatableJob :=
  queue.filter (fun j => j.name != name) ++ [⟨name, every⟩]

/-- Modelled from the spec: `readEnvInt` (used at server.ts line 63; its
implementation in util.ts is not under src/). Per spec §6.4 the interval is
an environment variable with a default: the named variable is parsed as an
integer, falling back to the default when absent or unparsable. -/
def readEnvInt (env : List (String × String)) (name : String) (dflt : Nat) : Nat :=
  match List.lookup name env with
  | some s => s.toNat?.getD dflt
  | none => dflt

/-- `HEADS_JOB_SCHEDULE_INTERVAL` (server.ts line 63): the interval in
seconds to schedule the heads job, `readEnvInt` with default 30. -/
def headsJobScheduleInterval (env : List (String × String)) : Nat :=
  readEnvInt env "HEADS_JOB_SCHEDULE_INTERVAL" 30

/-- The update-tips scheduling step performed at server startup (server.ts
line 117): `ensureOnlyRepeatableJob(queue, 'update-tips', {},
HEADS_JOB_SCHEDULE_INTERVAL)`. -/
def scheduleUpdateTipsJob (env : List (String × String)) (queue : List RepeatableJob) :
    List RepeatableJob :=
  ensureOnlyRepeatableJob queue "update-tips" (headsJobScheduleInterval env)

/-- C6: whatever repeatable jobs the queue already holds, after the
scheduling step exactly one `update-tips` repeatable job is enqueued and its
period is `HEADS_JOB_SCHEDULE_INTERVAL`, whose default is 30 seconds when
the environment does not set it. -/
theorem update_tips_singleton_schedule (env : List (String × String))
    (queue : List RepeatableJob) :
    ((scheduleUpdateTipsJob env queue).filter (fun j => j.name == "update-tips"))
      = [⟨"update-tips", headsJobScheduleInterval env⟩] ∧
    headsJobScheduleInterval [] = 30 := by
  refine ⟨?_, by decide⟩
  unfold scheduleUpdateTipsJob ensureOnlyRepeatableJob
  rw [List.filter_append, List.filter_filter]
  have hnil : queue.filter (fun j => (j.name == "update-tips") && (j.name != "update-tips"))
      = [] := by
    apply List.filter_eq_nil_iff.mpr
    intro j _
    cases h : (j.name == "update-tips") <;> simp [bne, h]
  rw [hnil]
  simp

/-- A JavaScript error value as seen by the express error handler: either a
nullish value or an object with optional `status` and `message` fields. -/
inductive JsError where
  | null
  | obj (status : Option Nat) (message : Option String)
deriving DecidableEq, Repr

/-- The `status` field of the error, when the error is an object carrying
one. -/
def errorStatusField : JsError → Option Nat
  | .null => none
  | .obj st _ => st

/-- The `message` field of the error, when the error is an object carrying
one. -/
def errorMessageField : JsError → Option String
  | .null => none
  | .obj _ m => m

/-- JS truthiness of `error && error.status`: false for a nullish error, an
absent status, and the number 0. -/
def statusTruthy (e : JsError) : Bool :=
  match errorStatusField e with
  | some n => n != 0
  | none => false

/-- JS truthiness of `error && error.message`: false for a nullish error, an
absent message, and the empty string. -/
def messageTruthy (e : JsError) : Bool :=
  match errorMessageField e with
  | some s => s != ""
  | none => false

/-- Response status computed by `errorHandler` (server.ts line 84):
`(error && error.status) || 500`. -/
def errorHandlerStatus (e : JsError) : Nat :=
  match e with
  | .null => 500
  | .obj st _ =>
    match st with
    | some n => if n = 0 then 500 else n
    | none => 500

/-- Response message computed by `errorHandler` (server.ts line 84):
`(error && error.message) || 'Unknown error'`. -/
def errorHandlerMessage (e : JsError) : String :=
  match e with
  | .null => "Unknown error"
  | .obj _ m =>
    match m with
    | some s => if s = "" then "Unknown error" else s
    | none => "Unknown error"

/-- Whether `errorHandler` logs an uncaught exception (server.ts lines
78-81): `!error || !error.status`. -/
def errorHandlerLogs (e : JsError) : Bool :=
  match e with
  | .null => true
  | .obj st _ =>
    match st with
    | some n => n == 0
    | none => true

/-- The response written by `errorHandler` (server.ts lines 83-85): nothing
when the headers were already sent, otherwise the computed status and
message. -/
def errorHandlerRespond (headersSent : Bool) (e : JsError) : Option (Nat × String) :=
  if headersSent then none else some (errorHandlerStatus e, errorHandlerMessage e)

/-- C8 counterexample: an error object carrying the status field 0 has its
status present, yet the handler responds 500 because `0` is falsy in
`(error && error.status) || 500`; likewise a present empty message yields
`Unknown error`, and the zero-status error is logged as an uncaught
exception although it carries a status field. -/
theorem errorHandler_zero_status_counterexample :
    errorStatusField (JsError.obj (some 0) (some "boom")) = some 0 ∧
    errorHandlerStatus (JsError.obj (some 0) (some "boom")) = 500 ∧
    errorMessageField (JsError.obj (some 0) (some "")) = some "" ∧
    errorHandlerMessage (JsError.obj (some 0) (some "")) = "Unknown error" ∧
    errorHandlerLogs (JsError.obj (some 0) (some "boom")) = true := by
  decide

/-- C8 (amended): when the headers have not been sent the response status is
the error's status field when present and non-zero and 500 otherwise, the
response message is the error's message when present and non-empty and
`Unknown error` otherwise, nothing is written once headers were sent, and an
error is logged as an uncaught exception exactly when it is nullish or its
status field is absent or zero. -/
theorem errorHandler_status_message_spec (e : JsError) :
    (∀ n, errorStatusField e = some n → n ≠ 0 → errorHandlerStatus e = n) ∧
    (statusTruthy e = false → errorHandlerStatus e = 500) ∧
    (∀ s, errorMessageField e = some s → s ≠ "" → errorHandlerMessage e = s) ∧
    (messageTruthy e = false → errorHandlerMessage e = "Unknown error") ∧
    (errorHandlerLogs e = true ↔ statusTruthy e = false) ∧
    errorHandlerRespond true e = none ∧
    errorHandlerRespond false e = some (errorHandlerStatus e, errorHandlerMessage e) := by
  refine ⟨?_, ?_, ?_, ?_, ?_, rfl, rfl⟩
  · intro n hfield hn
    cases e with
    | null => exact absurd hfield (by simp [errorStatusField])
    | obj st m =>
      simp only [errorStatusField] at hfield
      subst hfield
      simp [errorHandlerStatus, hn]
  · intro htr
    cases e with
    | null => rfl
    | obj st m =>
      cases st with
      | none => rfl
      | some n =>
        simp only [statusTruthy, errorStatusField, bne_eq_false_iff_eq] at htr
        simp [errorHandlerStatus, htr]
  · intro s hfield hs
    cases e with
    | null => exact absurd hfield (by simp [errorMessageField])
    | obj st m =>
      simp only [errorMessageField] at hfield
      subst hfield
      simp [errorHandlerMessage, hs]
  · intro htr
    cases e with
    | null => rfl
    | obj st m =>
      cases m with
      | none => rfl
      | some s =>
        simp only [messageTruthy, errorMessageField, bne_eq_false_iff_eq] at htr
        simp [errorHandlerMessage, htr]
  · cases e with
    | null => simp [errorHandlerLogs, statusTruthy, errorStatusField]
    | obj st m =>
      cases st with
      | none => simp [errorHandlerLogs, statusTruthy, errorStatusField]
      | some n =>
        simp only [errorHandlerLogs, statusTruthy, errorStatusField]
        cases h : (n == 0) <;> simp_all [bne]

/-- C8 witness: at the concrete error with status 404 and message `boom` the
handler responds 404 with `boom` and does not log; the nullish error maps to
status 500. -/
theorem errorHandler_status_message_spec_witness :
    errorHandlerStatus (JsError.obj (some 404) (some "boom")) = 404 ∧
    errorHandlerMessage (JsError.obj (some 404) (some "boom")) = "boom" ∧
    (errorHandlerLogs (JsError.obj (some 404) (some "boom")) = true
      ↔ statusTruthy (JsError.obj (some 404) (some "boom")) = false) ∧
    errorHandlerStatus JsError.null = 500 := by
  have h1 := errorHandler_status_message_spec (JsError.obj (some 404) (some "boom"))
  have h2 := errorHandler_status_message_spec JsError.null
  exact ⟨h1.1 404 rfl (by decide), h1.2.2.1 "boom" rfl (by decide),
    h1.2.2.2.2.1, h2.2.1 (by decide)⟩

/-- Modelled from the spec: names of entries under the storage root, per the
layout of spec §6.3 (`dbFilename`/`dbFilenameOld` live in util.ts, which is
not under src/): the id-based dump file `<dump-id>.lsif.db`, the pre-3.9
dump file `<repo>@<commit>.lsif.db`, and the one-shot migration marker
`id-based-filenames`. The constructors are distinct because an id-based name
never contains the `@` separator of the old scheme. -/
inductive FName where
  | db (id : Nat)
  | dbOld (repo chash : String)
  | marker
  | other (s : String)
deriving DecidableEq, Repr

/-- A row of `lsif_dumps` as read by the migration (xrepo.models' LsifDump):
the generated id and the repository and commit it was uploaded for. -/
structure Dump where
  id : Nat
  repository : String
  commit : String
deriving DecidableEq, Repr

/-- The pre-3.9 filename of a dump, `dbFilenameOld(STORAGE_ROOT,
dump.repository, dump.commit)` (server.ts line 161). -/
def dumpOldFile (d : Dump) : FName := .dbOld d.repository d.commit

/-- The id-based filename of a dump, `dbFilename(STORAGE_ROOT, dump.id,
dump.repository, dump.commit)` (server.ts line 162). -/
def dumpNewFile (d : Dump) : FName := .db d.id

/-- State threaded through the migration loop: the files present under the
storage root and the renames performed so far. -/
structure MigrationState where
  files : List FName
  renames : List (FName × FName)
deriving DecidableEq, Repr

/-- The body of the migration loop (server.ts lines 160-167): when the
dump's old-format file exists, rename it to the id-based name; otherwise
continue. -/
def migrateOne (st : MigrationState) (d : Dump) : MigrationState :=
  if dumpOldFile d ∈ st.files then
    ⟨dumpNewFile d :: st.files.filter (fun f => f != dumpOldFile d),
      st.renames ++ [(dumpOldFile d, dumpNewFile d)]⟩
  else st

/-- `ensureFilenamesAreIDs` (server.ts lines 153-171): when the marker file
`id-based-filenames` exists the migration already ran and nothing happens;
otherwise every dump row is visited, its old-format file renamed when
present, and the empty marker file is created at the end. -/
def ensureFilenamesAreIDs (dumps : List Dump) (files : List FName) : MigrationState :=
  if FName.marker ∈ files then ⟨files, []⟩
  else
    let st := dumps.foldl migrateOne ⟨files, []⟩
    ⟨FName.marker :: st.files, st.renames⟩

/-- An old-format name absent from the files is still absent after the
migration loop: each step only removes old-format names and adds id-based
ones. -/
theorem migrate_oldFile_stays_absent (dumps : List Dump) (st : MigrationState)
    (r c : String) (h : FName.dbOld r c ∉ st.files) :
    FName.dbOld r c ∉ (dumps.foldl migrateOne st).files := by
  induction dumps generalizing st with
  | nil => exact h
  | cons d rest ih =>
    rw [List.foldl_cons]
    apply ih
    unfold migrateOne
    split
    · intro hmem
      rcases List.mem_cons.mp hmem with heq | hmem
      · exact FName.noConfusion heq
      · exact h (List.mem_filter.mp hmem).1
    · exact h

/-- An id-based name present in the files is still present after the
migration loop: the filter of each step removes only old-format names. -/
theorem migrate_newFile_stays_present (dumps : List Dump) (st : MigrationState)
    (i : Nat) (h : FName.db i ∈ st.files) :
    FName.db i ∈ (dumps.foldl migrateOne st).files := by
  induction dumps generalizing st with
  | nil => exact h
  | cons d rest ih =>
    rw [List.foldl_cons]
    apply ih
    unfold migrateOne
    split
    · apply List.mem_cons.mpr
      right
      apply List.mem_filter.mpr
      refine ⟨h, ?_⟩
      simp [dumpOldFile, bne]
    · exact h

/-- A recorded rename stays recorded: the loop only appends to the rename
list. -/
theorem migrate_rename_stays (dumps : List Dump) (st : MigrationState)
    (p : FName × FName) (h : p ∈ st.renames) :
    p ∈ (dumps.foldl migrateOne st).renames := by
  induction dumps generalizing st with
  | nil => exact h
  | cons d rest ih =>
    rw [List.foldl_cons]
    apply ih
    unfold migrateOne
    split
    · exact List.mem_append.mpr (Or.inl h)
    · exact h

/-- When some dump row matches an old-format file present in the state, the
loop removes that file and records its rename to the id-based name of a
matching dump. -/
theorem migrate_renames_matching (dumps : List Dump) (st : MigrationState)
    (r c : String) (hmem : FName.dbOld r c ∈ st.files)
    (hd : ∃ d, d ∈ dumps ∧ d.repository = r ∧ d.commit = c) :
    FName.dbOld r c ∉ (dumps.foldl migrateOne st).files ∧
    ∃ e, e ∈ dumps ∧ e.repository = r ∧ e.commit = c ∧
      (FName.dbOld r c, FName.db e.id) ∈ (dumps.foldl migrateOne st).renames := by
  induction dumps generalizing st with
  | nil =>
    obtain ⟨d, hd, -⟩ := hd
    exact absurd hd (List.not_mem_nil d)
  | cons d0 rest ih =>
    rw [List.foldl_cons]
    by_cases h0 : d0.repository = r ∧ d0.commit = c
    · have hold : dumpOldFile d0 = FName.dbOld r c := by
        unfold dumpOldFile
        rw [h0.1, h0.2]
      have hstep : migrateOne st d0
          = ⟨dumpNewFile d0 :: st.files.filter (fun f => f != dumpOldFile d0),
              st.renames ++ [(dumpOldFile d0, dumpNewFile d0)]⟩ := by
        unfold migrateOne
        rw [if_pos (hold ▸ hmem)]
      rw [hstep]
      constructor
      · apply migrate_oldFile_stays_absent
        intro hmem2
        rcases List.mem_cons.mp hmem2 with heq | hmem2
        · exact FName.noConfusion heq
        · have := (List.mem_filter.mp hmem2).2
          rw [hold] at this
          simp [bne] at this
      · refine ⟨d0, List.mem_cons_self d0 rest, h0.1, h0.2, ?_⟩
        apply migrate_rename_stays
        rw [hold]
        exact List.mem_append.mpr (Or.inr (List.mem_cons_self _ _))
    · have hrest : ∃ d, d ∈ rest ∧ d.repository = r ∧ d.commit = c := by
        obtain ⟨d, hdmem, hdr, hdc⟩ := hd
        rcases List.mem_cons.mp hdmem with heq | hdmem
        · exact absurd ⟨heq ▸ hdr, heq ▸ hdc⟩ h0
        · exact ⟨d, hdmem, hdr, hdc⟩
      have hmem2 : FName.dbOld r c ∈ (migrateOne st d0).files := by
        unfold migrateOne
        split
        · apply List.mem_cons.mpr
          right
          apply List.mem_filter.mpr
          refine ⟨hmem, ?_⟩
          have hne : FName.dbOld r c ≠ dumpOldFile d0 := by
            unfold dumpOldFile
            intro heq
            injection heq with h1 h2
            exact h0 ⟨h1.symm, h2.symm⟩
          simp [bne, hne]
        · exact hmem
      obtain ⟨habs, e, hemem, her, hec, hren⟩ := ih (migrateOne st d0) hmem2 hrest
      exact ⟨habs, e, List.mem_cons_of_mem d0 hemem, her, hec, hren⟩

/-- C7: the filename migration is one-shot and idempotent — when the marker
file `id-based-filenames` exists it performs no renames and leaves the files
untouched; otherwise the marker is created, a second run performs no renames
and changes nothing, and every present old-format file belonging to a dump
row is removed and its rename to the id-based name of a matching dump row is
recorded. -/
theorem ensureFilenames_one_shot (dumps : List Dump) (files : List FName) :
    (FName.marker ∈ files → ensureFilenamesAreIDs dumps files = ⟨files, []⟩) ∧
    FName.marker ∈ (ensureFilenamesAreIDs dumps files).files ∧
    ensureFilenamesAreIDs dumps (ensureFilenamesAreIDs dumps files).files
      = ⟨(ensureFilenamesAreIDs dumps files).files, []⟩ ∧
    (∀ d, d ∈ dumps → FName.marker ∉ files → dumpOldFile d ∈ files →
      dumpOldFile d ∉ (ensureFilenamesAreIDs dumps files).files ∧
      ∃ e, e ∈ dumps ∧ e.repository = d.repository ∧ e.commit = d.commit ∧
        (dumpOldFile d, dumpNewFile e) ∈ (ensureFilenamesAreIDs dumps files).renames) := by
  have noop : ∀ fs : List FName, FName.marker ∈ fs →
      ensureFilenamesAreIDs dumps fs = ⟨fs, []⟩ := by
    intro fs h
    unfold ensureFilenamesAreIDs
    rw [if_pos h]
  have hmarker : FName.marker ∈ (ensureFilenamesAreIDs dumps files).files := by
    unfold ensureFilenamesAreIDs
    split
    · assumption
    · exact List.mem_cons_self _ _
  refine ⟨noop files, hmarker, noop _ hmarker, ?_⟩
  intro d hd hnomarker hold
  have hrun : ensureFilenamesAreIDs dumps files
      = ⟨FName.marker :: (dumps.foldl migrateOne ⟨files, []⟩).files,
          (dumps.foldl migrateOne ⟨files, []⟩).renames⟩ := by
    unfold ensureFilenamesAreIDs
    rw [if_neg hnomarker]
  obtain ⟨habs, e, hemem, her, hec, hren⟩ :=
    migrate_renames_matching dumps ⟨files, []⟩ d.repository d.commit hold
      ⟨d, hd, rfl, rfl⟩
  rw [hrun]
  constructor
  · intro hmem
    rcases List.mem_cons.mp hmem with heq | hmem
    · exact FName.noConfusion heq
    · exact habs hmem
  · exact ⟨e, hemem, her, hec, hren⟩

/-- C7 witness: with one dump row (id 7, repo `r`, commit `c`) and the disk
holding only the old-format file, running the migration creates the marker,
removes the old-format file and records its rename to `7.lsif.db`; the
migration is a no-op on a marked directory. -/
theorem ensureFilenames_one_shot_witness :
    FName.marker ∈ (ensureFilenamesAreIDs [⟨7, "r", "c"⟩] [FName.dbOld "r" "c"]).files ∧
    dumpOldFile ⟨7, "r", "c"⟩
      ∉ (ensureFilenamesAreIDs [⟨7, "r", "c"⟩] [FName.dbOld "r" "c"]).files ∧
    (∃ e, e ∈ [(⟨7, "r", "c"⟩ : Dump)] ∧ e.repository = "r" ∧ e.commit = "c" ∧
      (dumpOldFile ⟨7, "r", "c"⟩, dumpNewFile e)
        ∈ (ensureFilenamesAreIDs [⟨7, "r", "c"⟩] [FName.dbOld "r" "c"]).renames) ∧
    ensureFilenamesAreIDs [⟨7, "r", "c"⟩] [FName.marker] = ⟨[FName.marker], []⟩ := by
  obtain ⟨h1, h2, h3, h4⟩ :=
    ensureFilenames_one_shot [⟨7, "r", "c"⟩] [FName.dbOld "r" "c"]
  obtain ⟨h5, h6⟩ := h4 ⟨7, "r", "c"⟩ (by decide) (by decide) (by decide)
  obtain ⟨h7, -, -, -⟩ := ensureFilenames_one_shot [⟨7, "r", "c"⟩] [FName.marker]
  exact ⟨h2, h5, h6, h7 (by decide)⟩

/-- Modelled from the spec: a Range record of the per-dump store (§3): a
zero-based start and end position, half-open on the end character, with the
resolved result ids and moniker ids attached to the range. Only the
reference-result id matters to the references operation. -/
structure RangeRec where
  startLine : Nat
  startCharacter : Nat
  endLine : Nat
  endCharacter : Nat
  referenceResultId : Option Nat
  monikerIds : List Nat
deriving DecidableEq, Repr

/-- A code-intelligence location: a document path and a range within it. -/
structure Location where
  uri : String
  startLine : Nat
  startCharacter : Nat
  endLine : Nat
  endCharacter : Nat
deriving DecidableEq, Repr

/-- Modelled from the spec: range containment (§3, §4.4) — positions are
zero-based and ranges are half-open on the end character. -/
def rangeContains (r : RangeRec) (line character : Nat) : Bool :=
  decide ((r.startLine < line ∨ (r.startLine = line ∧ r.startCharacter ≤ character)) ∧
    (line < r.endLine ∨ (line = r.endLine ∧ character < r.endCharacter)))

/-- Modelled from the spec: the order in which overlapping containing ranges
are preferred (§4.4): "the one with the smallest area wins; ties break by
earliest start" — smaller line extent, then smaller character extent, then
earlier start position. -/
def rangeInnerBefore (a b : RangeRec) : Bool :=
  decide (a.endLine - a.startLine < b.endLine - b.startLine) ||
    ((a.endLine - a.startLine == b.endLine - b.startLine) &&
      (decide (a.endCharacter - a.startCharacter < b.endCharacter - b.startCharacter) ||
        ((a.endCharacter - a.startCharacter == b.endCharacter - b.startCharacter) &&
          (decide (a.startLine < b.startLine) ||
            ((a.startLine == b.startLine) &&
              decide (a.startCharacter < b.startCharacter))))))

/-- Modelled from the spec: selection of the innermost range containing the
query position among a document's ranges (§4.4). -/
def innermostRange (ranges : List (Nat × RangeRec)) (line character : Nat) :
    Option (Nat × RangeRec) :=
  (ranges.filter (fun p => rangeContains p.2 line character)).foldl
    (fun acc p =>
      match acc with
      | none => some p
      | some q => if rangeInnerBefore p.2 q.2 then some p else acc)
    none

/-- Modelled from the spec: the per-dump query database consulted by
`Database.references` (§4.4; database.ts is not under src/, only its test in
src/unnamed/part_000 is). Documents map a path to the ranges within the
file; result chunks map a result id to the `(documentPath, rangeId)` pairs
comprising it; monikers and the cross-repo reference rows feed the
cross-dump half of the references operation. -/
structure QueryDatabase where
  documents : List (String × List (Nat × RangeRec))
  resultChunks : List (Nat × List (String × Nat))
  monikers : List (Nat × (String × String))
  xrepoReferences : List ((String × String) × List Location)

/-- Modelled from the spec: resolving a result id through its result chunk
(§4.4) — look up the `(documentPath, rangeId)` list for the id, fetch each
referenced document and materialize the range positions. -/
def resolveResult (db : QueryDatabase) (resultId : Nat) : List Location :=
  match List.lookup resultId db.resultChunks with
  | none => []
  | some items =>
    items.filterMap (fun item =>
      match List.lookup item.1 db.documents with
      | none => none
      | some ranges =>
        match List.lookup item.2 ranges with
        | none => none
        | some r => some ⟨item.1, r.startLine, r.startCharacter, r.endLine, r.endCharacter⟩)

/-- Modelled from the spec: the cross-dump half of references (§4.4) — for
each moniker on the innermost range, resolve `(scheme, identifier)` against
the cross-repo reference rows. -/
def crossDumpReferences (db : QueryDatabase) (monikerIds : List Nat) : List Location :=
  monikerIds.flatMap (fun mid =>
    match List.lookup mid db.monikers with
    | none => []
    | some sid =>
      match List.lookup sid db.xrepoReferences with
      | none => []
      | some locs => locs)

/-- Modelled from the spec: `Database.references(path, position)` (§4.4) —
the union of the local reference result of the innermost range containing
the position and the cross-dump references found through its monikers. -/
def references (db : QueryDatabase) (path : String) (line character : Nat) :
    List Location :=
  match List.lookup path db.documents with
  | none => []
  | some ranges =>
    match innermostRange ranges line character with
    | none => []
    | some pr =>
      (match pr.2.referenceResultId with
        | none => []
        | some rid => resolveResult db rid) ++ crossDumpReferences db pr.2.monikerIds

/-- The single-file test dump of spec §8 scenario 1 and the test in
src/unnamed/part_000: document `src/index.ts` with the abstract declaration
of `foo` at line 1 columns 4-7, concrete definitions at lines 5 and 9 with
the same column span, and uses at lines 13 and 16 with column span 2-5. The
reference results of the three declarations and two uses are linked, so all
five ranges share one merged reference result. -/
def testDumpRanges : List (Nat × RangeRec) :=
  [(1, ⟨1, 4, 1, 7, some 100, []⟩),
   (2, ⟨5, 4, 5, 7, some 100, []⟩),
   (3, ⟨9, 4, 9, 7, some 100, []⟩),
   (4, ⟨13, 2, 13, 5, some 100, []⟩),
   (5, ⟨16, 2, 16, 5, some 100, []⟩)]

/-- The query database of the single-file test dump: one document, one
merged reference result listing all five ranges, no monikers. -/
def testDump : QueryDatabase :=
  { documents := [("src/index.ts", testDumpRanges)],
    resultChunks :=
      [(100, [("src/index.ts", 1), ("src/index.ts", 2), ("src/index.ts", 3),
              ("src/index.ts", 4), ("src/index.ts", 5)])],
    monikers := [],
    xrepoReferences := [] }

/-- The five locations the test expects: the three declaration ranges and
the two use ranges (src/unnamed/part_000 lines 79-86). -/
def testDumpExpected : List Location :=
  [⟨"src/index.ts", 1, 4, 1, 7⟩,
   ⟨"src/index.ts", 5, 4, 5, 7⟩,
   ⟨"src/index.ts", 9, 4, 9, 7⟩,
   ⟨"src/index.ts", 13, 2, 13, 5⟩,
   ⟨"src/index.ts", 16, 2, 16, 5⟩]

/-- C3: on the single-file test dump, the references operation queried at
any of the five positions (1,5), (5,5), (9,5), (13,3), (16,3) returns
exactly five locations — the three declaration ranges and the two use
ranges. -/
theorem testdump_references_five_locations :
    references testDump "src/index.ts" 1 5 = testDumpExpected ∧
    references testDump "src/index.ts" 5 5 = testDumpExpected ∧
    references testDump "src/index.ts" 9 5 = testDumpExpected ∧
    references testDump "src/index.ts" 13 3 = testDumpExpected ∧
    references testDump "src/index.ts" 16 3 = testDumpExpected ∧
    testDumpExpected.length = 5 := by
  refine ⟨rfl, rfl, rfl, rfl, rfl, rfl⟩

end Lsif
